import Mathlib

/-!
Verification development for the contribution-simulator core
(`simulator.py`): a shallow embedding of the stochastic scheduling
engine, the message generator, the intensity profiles and the
statistics aggregator, followed by theorems about the embedded code.

The Python code draws from the process-wide `random` generator.  The
embedding threads that generator explicitly: a `RStream` holds the
deterministic sequence of raw draws the seeded generator would
produce (`unif` for the uniform draws in `[0,1)` backing `random()`,
`randint` and `choice`; `gaussv` for the standardized normal draws
backing `gauss`), and every operation passes along the index of the
next draw.  Calendar dates are represented by their proleptic
Gregorian ordinal (Python's `date.toordinal()`), so `weekday d` is
`(d - 1) % 7` with Monday = 0, exactly as `date.weekday()`.
-/

/-- The deterministic stream of raw random draws produced by the seeded
generator.  `unif n` is the n-th raw uniform draw, `gaussv n` the n-th
raw standardized normal draw. -/
structure RStream where
  unif : Nat → ℚ
  gaussv : Nat → ℚ

/-- A well-formed stream: every uniform draw lies in `[0, 1)`, as
`random.random()` guarantees. -/
def SOk (s : RStream) : Prop := ∀ n, 0 ≤ s.unif n ∧ s.unif n < 1

/-- Model of `random.random()`: the next uniform draw, advancing the stream. -/
def randFloat (s : RStream) (k : Nat) : ℚ × Nat := (s.unif k, k + 1)

/-- Model of `random.randint(lo, hi)`: a uniform integer in `[lo, hi]`
derived from the next raw draw. -/
def randint (s : RStream) (lo hi : ℤ) (k : Nat) : ℤ × Nat :=
  (lo + ⌊s.unif k * ((hi - lo + 1 : ℤ) : ℚ)⌋, k + 1)

/-- Model of `random.gauss(mu, sigma)`: mean plus sigma times the next raw
standardized normal draw (which may be any rational). -/
def gaussD (s : RStream) (mu sigma : ℚ) (k : Nat) : ℚ × Nat :=
  (mu + sigma * s.gaussv k, k + 1)

/-- Model of `random.choice(l)`: a uniformly chosen element of `l`,
derived from the next raw draw. -/
def choice (s : RStream) (l : List String) (k : Nat) : String × Nat :=
  (l.getD (⌊s.unif k * (l.length : ℚ)⌋).toNat "", k + 1)

/-- Python's `int()` applied to a rational: truncation toward zero. -/
def pyInt (q : ℚ) : ℤ := if 0 ≤ q then ⌊q⌋ else ⌈q⌉

/-- The `Commit` dataclass's timestamp: a calendar day (proleptic
Gregorian ordinal) plus hour, minute and second, mirroring
`datetime.datetime(date.year, date.month, date.day, hour, minute, second)`. -/
structure Timestamp where
  day : ℕ
  hour : ℤ
  minute : ℤ
  second : ℤ
deriving DecidableEq

/-- The `Commit` dataclass: a timestamp and a message. -/
structure Commit where
  timestamp : Timestamp
  message : String
deriving DecidableEq

/-- `date.weekday()` on an ordinal day: Monday = 0 ... Sunday = 6. -/
def weekday (d : ℕ) : ℕ := (d - 1) % 7

/-- The chronological sort key of a timestamp; for the in-range hours,
minutes and seconds produced by the engine it orders timestamps exactly
as Python's `datetime` comparison does. -/
def tsKey (t : Timestamp) : ℤ :=
  (t.day : ℤ) * 86400 + t.hour * 3600 + t.minute * 60 + t.second

/-- Chronological (non-strict) order on timestamps. -/
def tsLE (a b : Timestamp) : Prop := tsKey a ≤ tsKey b

instance : DecidableRel tsLE := fun a b => inferInstanceAs (Decidable (tsKey a ≤ tsKey b))

instance : IsTotal Timestamp tsLE := ⟨fun a b => le_total (tsKey a) (tsKey b)⟩

instance : IsTrans Timestamp tsLE := ⟨fun _ _ _ h1 h2 => le_trans h1 h2⟩

/-- Chronological order on commits (by timestamp). -/
def commitLE (a b : Commit) : Prop := tsLE a.timestamp b.timestamp

/-- One intensity profile's configuration dictionary
(`ContributionProfile.PROFILES[name]`). -/
structure Config where
  daily_commit_prob : ℚ
  weekend_reduction : ℚ
  avg_commits_per_day : ℚ
  max_commits_per_day : ℤ
  burst_probability : ℚ
  burst_multiplier : ℚ
  commit_time_start : ℤ
  commit_time_end : ℤ
deriving DecidableEq

/-- The `light` profile of `ContributionProfile.PROFILES`. -/
def lightProfile : Config :=
  { daily_commit_prob := 2/5
    weekend_reduction := 3/10
    avg_commits_per_day := 3/2
    max_commits_per_day := 4
    burst_probability := 1/20
    burst_multiplier := 5/2
    commit_time_start := 9
    commit_time_end := 18 }

/-- The `medium` profile of `ContributionProfile.PROFILES`. -/
def mediumProfile : Config :=
  { daily_commit_prob := 7/10
    weekend_reduction := 1/2
    avg_commits_per_day := 3
    max_commits_per_day := 8
    burst_probability := 1/10
    burst_multiplier := 2
    commit_time_start := 8
    commit_time_end := 22 }

/-- The `heavy` profile of `ContributionProfile.PROFILES`. -/
def heavyProfile : Config :=
  { daily_commit_prob := 9/10
    weekend_reduction := 7/10
    avg_commits_per_day := 5
    max_commits_per_day := 15
    burst_probability := 3/20
    burst_multiplier := 9/5
    commit_time_start := 7
    commit_time_end := 23 }

/-- The core's error taxonomy.  `configError` is the `ValueError` raised
by `ContributionProfile.__init__` for an unknown intensity name (the
spec's `ConfigurationError`).  `invalidRange` is the spec's
`InvalidRangeError`; it is included so that statements about it can be
made, but no code path of the source produces it. -/
inductive SimError where
  | configError : String → SimError
  | invalidRange : SimError
deriving DecidableEq

/-- `ContributionProfile.__init__`: returns the named profile's
configuration, or fails for a name outside the three canonical ones. -/
def ContributionProfile.make (intensity : String) : Except SimError Config :=
  if intensity = "light" then Except.ok lightProfile
  else if intensity = "medium" then Except.ok mediumProfile
  else if intensity = "heavy" then Except.ok heavyProfile
  else Except.error (SimError.configError "Intensity must be one of: ['light', 'medium', 'heavy']")

/-- The three canonical intensity names. -/
def IsCanonical (intensity : String) : Prop :=
  intensity = "light" ∨ intensity = "medium" ∨ intensity = "heavy"

/-- `CommitMessageGenerator.PREFIXES`. -/
def PREFIXES : List String :=
  ["feat", "fix", "docs", "style", "refactor",
   "test", "chore", "perf", "build", "ci", "wip"]

/-- `CommitMessageGenerator.ACTIONS`. -/
def ACTIONS : List String :=
  ["update", "add", "remove", "fix", "implement",
   "refactor", "optimize", "improve", "clean up",
   "rework", "simplify", "enhance", "adjust",
   "tweak", "revise", "modify", "patch"]

/-- `CommitMessageGenerator.OBJECTS`. -/
def OBJECTS : List String :=
  ["README", "config", "tests", "utils", "helpers",
   "main module", "API", "docs", "dependencies",
   "deployment", "CI config", "error handling",
   "validation", "logging", "database", "models",
   "routes", "components", "styles", "assets"]

/-- `CommitMessageGenerator.DETAILS` (the empty entries give short messages). -/
def DETAILS : List String :=
  ["for better performance", "to handle edge cases",
   "based on feedback", "for compatibility",
   "to fix bug", "as requested", "for clarity",
   "per review comments", "to improve UX",
   "to address security issue", "", "", ""]

/-- `CommitMessageGenerator.generate`: a three-way weighted choice of
message template, each slot drawn uniformly from its vocabulary. -/
def CommitMessageGenerator.generate (s : RStream) (k : Nat) : String × Nat :=
  let style := randFloat s k
  if style.1 < 2/5 then
    let pfx := choice s PREFIXES style.2
    let act := choice s ACTIONS pfx.2
    let ob := choice s OBJECTS act.2
    let det := choice s DETAILS ob.2
    (if det.1 ≠ "" then pfx.1 ++ ": " ++ act.1 ++ " " ++ ob.1 ++ " " ++ det.1
     else pfx.1 ++ ": " ++ act.1 ++ " " ++ ob.1, det.2)
  else if style.1 < 7/10 then
    let act := choice s ACTIONS style.2
    let ob := choice s OBJECTS act.2
    (act.1.capitalize ++ " " ++ ob.1, ob.2)
  else
    let act := choice s ACTIONS style.2
    let ob := choice s OBJECTS act.2
    let det := choice s DETAILS ob.2
    (if det.1 ≠ "" then act.1 ++ " " ++ ob.1 ++ " " ++ det.1
     else act.1 ++ " " ++ ob.1, det.2)

/-- `ContributionSimulator._should_commit_today`: one uniform draw against
the (weekend-reduced) daily probability. -/
def should_commit_today (cfg : Config) (s : RStream) (d : ℕ) (k : Nat) : Bool × Nat :=
  let p := if 5 ≤ weekday d then cfg.daily_commit_prob * cfg.weekend_reduction
           else cfg.daily_commit_prob
  let u := randFloat s k
  (decide (u.1 < p), u.2)

/-- `ContributionSimulator._get_commit_count`: gaussian volume draw,
truncation, clamp to a minimum of 1, optional burst multiplication,
final clamp to the daily maximum. -/
def get_commit_count (cfg : Config) (s : RStream) (k : Nat) : ℤ × Nat :=
  let g := gaussD s cfg.avg_commits_per_day (cfg.avg_commits_per_day * (1/2)) k
  let count0 : ℤ := max 1 (pyInt g.1)
  let b := randFloat s g.2
  let count1 : ℤ :=
    if b.1 < cfg.burst_probability then pyInt ((count0 : ℚ) * cfg.burst_multiplier)
    else count0
  (min count1 cfg.max_commits_per_day, b.2)

/-- The body of `_biased_hour`'s `while attempts < 10` loop, with the
remaining attempt budget as fuel; when the budget is exhausted the code
draws one more uniform hour and returns it unconditionally. -/
def biasedHourLoop (s : RStream) (lo hi : ℤ) : Nat → Nat → ℤ × Nat
  | 0, k => randint s lo hi k
  | n+1, k =>
    let h := randint s lo hi k
    let u := randFloat s h.2
    if (10 ≤ h.1 ∧ h.1 ≤ 12) ∨ (14 ≤ h.1 ∧ h.1 ≤ 17) then
      if u.1 < 7/10 then (h.1, u.2) else biasedHourLoop s lo hi n u.2
    else
      if u.1 < 2/5 then (h.1, u.2) else biasedHourLoop s lo hi n u.2

/-- `ContributionSimulator._biased_hour`: up to 10 acceptance attempts,
then the fallback draw. -/
def biased_hour (s : RStream) (lo hi : ℤ) (k : Nat) : ℤ × Nat :=
  biasedHourLoop s lo hi 10 k

/-- The timestamp-building loop of `_generate_commit_times`: for each
event draw a biased hour, then a uniform minute and second. -/
def genTimesLoop (cfg : Config) (s : RStream) (d : ℕ) : Nat → Nat → List Timestamp × Nat
  | 0, k => ([], k)
  | n+1, k =>
    let h := biased_hour s cfg.commit_time_start cfg.commit_time_end k
    let m := randint s 0 59 h.2
    let sec := randint s 0 59 m.2
    let rest := genTimesLoop cfg s d n sec.2
    (⟨d, h.1, m.1, sec.1⟩ :: rest.1, rest.2)

/-- `ContributionSimulator._generate_commit_times`: draw `count`
timestamps on day `d`, then sort them chronologically. -/
def generate_commit_times (cfg : Config) (s : RStream) (d : ℕ) (count : ℤ) (k : Nat) :
    List Timestamp × Nat :=
  let ts := genTimesLoop cfg s d count.toNat k
  (List.insertionSort tsLE ts.1, ts.2)

/-- The message-attaching loop of `generate_day`: one generated message
per (already sorted) timestamp, in order. -/
def attachMessages (s : RStream) : List Timestamp → Nat → List Commit × Nat
  | [], k => ([], k)
  | t :: ts, k =>
    let msg := CommitMessageGenerator.generate s k
    let rest := attachMessages s ts msg.2
    (⟨t, msg.1⟩ :: rest.1, rest.2)

/-- `ContributionSimulator.generate_day`: activation check, volume
selection, timestamp generation, message attachment. -/
def generate_day (cfg : Config) (s : RStream) (d : ℕ) (k : Nat) : List Commit × Nat :=
  let act := should_commit_today cfg s d k
  if act.1 then
    let count := get_commit_count cfg s act.2
    let times := generate_commit_times cfg s d count.1 count.2
    attachMessages s times.1 times.2
  else ([], act.2)

/-- The `while current_date <= self.end_date` loop of `simulate`, with
the number of remaining days as fuel. -/
def simulateLoop (cfg : Config) (s : RStream) : ℕ → ℕ → Nat → List Commit × Nat
  | _, 0, k => ([], k)
  | d, n+1, k =>
    let cs := generate_day cfg s d k
    let rest := simulateLoop cfg s (d+1) n cs.2
    (cs.1 ++ rest.1, rest.2)

/-- `ContributionSimulator.simulate`: all commits for the days from
`startD` to `endD` inclusive, in ascending day order. -/
def simulate (startD endD : ℕ) (cfg : Config) (s : RStream) (k : Nat) : List Commit × Nat :=
  simulateLoop cfg s startD (endD + 1 - startD) k

/-- `random.seed` as performed by `ContributionSimulator.__init__`: an
explicit seed resets the generator to the start of its seed-determined
stream; with no seed the generator keeps its current position. -/
def seedReset : Option ℕ → Nat → Nat
  | some _, _ => 0
  | none, k => k

/-- One full run: construct a `ContributionSimulator` (profile lookup
and seeding) and call `simulate`.  `s` is the stream the seeded
generator produces and `k0` the generator position before the run. -/
def runSimulate (startD endD : ℕ) (intensity : String) (seed : Option ℕ)
    (s : RStream) (k0 : Nat) : Except SimError (List Commit) :=
  match ContributionProfile.make intensity with
  | Except.error e => Except.error e
  | Except.ok cfg => Except.ok (simulate startD endD cfg s (seedReset seed k0)).1

/-- The statistics record built by `get_stats` for a non-empty commit
list. -/
structure Stats where
  total_commits : ℕ
  active_days : ℕ
  avg_commits_per_active_day : ℚ
  max_commits_in_day : ℕ
  by_weekday : List ℕ
  by_hour : List ℕ
deriving DecidableEq

/-- Increment the count stored at index `i` of a bucket list
(`by_weekday[i] += 1` / `by_hour[i] += 1`). -/
def bump (l : List ℕ) (i : ℕ) : List ℕ := l.set i (l.getD i 0 + 1)

/-- Increment the per-date tally (`by_date[key] = by_date.get(key, 0) + 1`). -/
def bumpDate (l : List (ℕ × ℕ)) (d : ℕ) : List (ℕ × ℕ) :=
  match l with
  | [] => [(d, 1)]
  | (d', c) :: t => if d' = d then (d', c + 1) :: t else (d', c) :: bumpDate t d

/-- The single bucketing pass of `get_stats` over the commit list. -/
def statsLoop : List Commit → List (ℕ × ℕ) → List ℕ → List ℕ →
    List (ℕ × ℕ) × List ℕ × List ℕ
  | [], bd, bw, bh => (bd, bw, bh)
  | c :: cs, bd, bw, bh =>
    statsLoop cs (bumpDate bd c.timestamp.day)
      (bump bw (weekday c.timestamp.day)) (bump bh c.timestamp.hour.toNat)

/-- `ContributionSimulator.get_stats`: the empty input yields the empty
dictionary (`none`); a non-empty input yields the full statistics
record. -/
def get_stats (commits : List Commit) : Option Stats :=
  match commits with
  | [] => none
  | _ :: _ =>
    let r := statsLoop commits [] (List.replicate 7 0) (List.replicate 24 0)
    let dailyCounts := r.1.map Prod.snd
    some
      { total_commits := commits.length
        active_days := r.1.length
        avg_commits_per_active_day := (commits.length : ℚ) / (r.1.length : ℚ)
        max_commits_in_day := dailyCounts.foldl max 0
        by_weekday := r.2.1
        by_hour := r.2.2 }

/-- The event's hour lies within the profile's inclusive active range. -/
def hourInRange (cfg : Config) (c : Commit) : Prop :=
  cfg.commit_time_start ≤ c.timestamp.hour ∧ c.timestamp.hour ≤ cfg.commit_time_end

/-- Every event of the list has its hour within the profile's active range. -/
def allHoursInRange (cfg : Config) (l : List Commit) : Prop :=
  ∀ c ∈ l, hourInRange cfg c

/-- The list is sorted non-decreasing by timestamp. -/
def sortedByTime (l : List Commit) : Prop := l.Pairwise commitLE

/-- Every event's date lies within the inclusive range. -/
def datesWithin (startD endD : ℕ) (l : List Commit) : Prop :=
  ∀ c ∈ l, startD ≤ c.timestamp.day ∧ c.timestamp.day ≤ endD

/-- The bounds the engine guarantees for a generated timestamp's time
fields: hour within the configured active range, minute and second
within `[0, 59]`. -/
def FieldsOk (cfg : Config) (t : Timestamp) : Prop :=
  cfg.commit_time_start ≤ t.hour ∧ t.hour ≤ cfg.commit_time_end ∧
  0 ≤ t.minute ∧ t.minute ≤ 59 ∧ 0 ≤ t.second ∧ t.second ≤ 59

/-- A timestamp generated for day `d`: correct day plus the field bounds. -/
def TsOk (cfg : Config) (d : ℕ) (t : Timestamp) : Prop :=
  t.day = d ∧ FieldsOk cfg t

/-- The field ranges `datetime.datetime` itself guarantees. -/
def ValidTs (t : Timestamp) : Prop :=
  0 ≤ t.hour ∧ t.hour < 24 ∧ 0 ≤ t.minute ∧ t.minute < 60 ∧ 0 ≤ t.second ∧ t.second < 60

/-- The aggregation identity of the spec: the summary exists and its
weekday buckets, hour buckets and total all sum to the input length. -/
def statsSumsAgree (l : List Commit) : Prop :=
  ∃ st, get_stats l = some st ∧ st.by_weekday.sum = l.length ∧
    st.by_hour.sum = l.length ∧ st.total_commits = l.length

/-- An activated day produces at least one and at most
`max_commits_per_day` events. -/
def activeDayCountOk (cfg : Config) (l : List Commit) : Prop :=
  1 ≤ l.length ∧ (l.length : ℤ) ≤ cfg.max_commits_per_day

/-- Outcome of a single-day simulation that is guaranteed to activate:
exactly one active day (a non-empty event list, all events dated `d`)
with between 1 and `max_commits_per_day` events. -/
def singleDayOutcome (cfg : Config) (d : ℕ) (l : List Commit) : Prop :=
  l ≠ [] ∧ (∀ c ∈ l, c.timestamp.day = d) ∧
  1 ≤ l.length ∧ (l.length : ℤ) ≤ cfg.max_commits_per_day

/-- Modelled from the spec, Step B: the base volume is the truncated
normal draw clamped to a minimum of 1. -/
def specBaseVolume (g : ℚ) : ℤ := max 1 (pyInt g)

/-- Modelled from the spec, Step B: with probability `burst_probability`
the count is multiplied by `burst_multiplier` and truncated to an
integer. -/
def specBurstAdjust (cfg : Config) (u : ℚ) (count : ℤ) : ℤ :=
  if u < cfg.burst_probability then pyInt ((count : ℚ) * cfg.burst_multiplier) else count

/-- Modelled from the spec, Step B: the final count is clamped to
`max_daily_volume`. -/
def specFinalClamp (cfg : Config) (count : ℤ) : ℤ := min count cfg.max_commits_per_day

/-- Modelled from the amended claim: one acceptance attempt — draw a
uniform hour in range, accept it with probability 0.7 if it lies in a
peak window (10-12 or 14-17) and with probability 0.4 otherwise. -/
def specHourAttempt (s : RStream) (lo hi : ℤ) (k : Nat) : Option ℤ × Nat :=
  let h := randint s lo hi k
  let u := randFloat s h.2
  let thr : ℚ := if (10 ≤ h.1 ∧ h.1 ≤ 12) ∨ (14 ≤ h.1 ∧ h.1 ≤ 17) then 7/10 else 2/5
  (if u.1 < thr then some h.1 else none, u.2)

/-- Modelled from the amended claim: run up to `n` acceptance attempts;
if all are exhausted without acceptance, draw one additional uniform
hour and return it unconditionally (an 11th draw — the rejected
candidates are not reused). -/
def specBiasedHour (s : RStream) (lo hi : ℤ) : Nat → Nat → ℤ × Nat
  | 0, k => randint s lo hi k
  | n+1, k =>
    let a := specHourAttempt s lo hi k
    match a.1 with
    | some h => (h, a.2)
    | none => specBiasedHour s lo hi n a.2

/-- A concrete well-formed stream (every uniform draw is 1/2). -/
def wStream : RStream := ⟨fun _ => 1/2, fun _ => 0⟩

/-- A concrete stream driving `_biased_hour` through 10 rejections:
every candidate draw yields the low hour, every acceptance draw
rejects, and the fallback draw (index 20) yields a different hour. -/
def c3Stream : RStream :=
  ⟨fun n => if n = 20 then 1/2 else if n % 2 = 0 then 0 else 9/10, fun _ => 0⟩

/-- A configuration with `daily_activation_probability = 1`,
`burst_probability = 0` and a weekend multiplier below 1, used to show
that a guaranteed-activation single-day simulation can still produce no
events on a weekend day. -/
def c7cfg : Config :=
  { daily_commit_prob := 1
    weekend_reduction := 3/10
    avg_commits_per_day := 3
    max_commits_per_day := 8
    burst_probability := 0
    burst_multiplier := 2
    commit_time_start := 9
    commit_time_end := 18 }

/-! Helper lemmas about the random primitives. -/

theorem wStream_ok : SOk wStream :=
  fun _ => ⟨by norm_num [wStream], by norm_num [wStream]⟩

theorem randint_bounds (s : RStream) (hs : SOk s) (lo hi : ℤ) (k : Nat) (h : lo ≤ hi) :
    lo ≤ (randint s lo hi k).1 ∧ (randint s lo hi k).1 ≤ hi := by
  obtain ⟨h0, h1⟩ := hs k
  have hn : (0:ℤ) < hi - lo + 1 := by omega
  have hnq : (0:ℚ) < ((hi - lo + 1 : ℤ) : ℚ) := by exact_mod_cast hn
  have hfl : 0 ≤ ⌊s.unif k * ((hi - lo + 1 : ℤ) : ℚ)⌋ :=
    Int.floor_nonneg.2 (mul_nonneg h0 (le_of_lt hnq))
  have hfu : ⌊s.unif k * ((hi - lo + 1 : ℤ) : ℚ)⌋ < hi - lo + 1 := by
    rw [Int.floor_lt]
    calc s.unif k * ((hi - lo + 1 : ℤ) : ℚ) < 1 * ((hi - lo + 1 : ℤ) : ℚ) :=
          mul_lt_mul_of_pos_right h1 hnq
      _ = ((hi - lo + 1 : ℤ) : ℚ) := one_mul _
  unfold randint
  dsimp only
  omega

theorem biasedHourLoop_bounds (s : RStream) (hs : SOk s) (lo hi : ℤ) (h : lo ≤ hi) :
    ∀ n k, lo ≤ (biasedHourLoop s lo hi n k).1 ∧ (biasedHourLoop s lo hi n k).1 ≤ hi := by
  intro n
  induction n with
  | zero => intro k; exact randint_bounds s hs lo hi k h
  | succ n ih =>
    intro k
    simp only [biasedHourLoop]
    split
    · split
      · exact randint_bounds s hs lo hi k h
      · exact ih _
    · split
      · exact randint_bounds s hs lo hi k h
      · exact ih _

theorem biased_hour_bounds (s : RStream) (hs : SOk s) (lo hi : ℤ) (k : Nat) (h : lo ≤ hi) :
    lo ≤ (biased_hour s lo hi k).1 ∧ (biased_hour s lo hi k).1 ≤ hi :=
  biasedHourLoop_bounds s hs lo hi h 10 k

/-! Helper lemmas about timestamp generation. -/

theorem genTimesLoop_mem (cfg : Config) (s : RStream) (hs : SOk s) (d : ℕ)
    (hlh : cfg.commit_time_start ≤ cfg.commit_time_end) :
    ∀ n k, ∀ t ∈ (genTimesLoop cfg s d n k).1, TsOk cfg d t := by
  intro n
  induction n with
  | zero => intro k t ht; simp [genTimesLoop] at ht
  | succ n ih =>
    intro k t ht
    simp only [genTimesLoop, List.mem_cons] at ht
    rcases ht with h | h
    · subst h
      exact ⟨rfl, (biased_hour_bounds s hs _ _ _ hlh).1, (biased_hour_bounds s hs _ _ _ hlh).2,
        (randint_bounds s hs 0 59 _ (by norm_num)).1, (randint_bounds s hs 0 59 _ (by norm_num)).2,
        (randint_bounds s hs 0 59 _ (by norm_num)).1, (randint_bounds s hs 0 59 _ (by norm_num)).2⟩
    · exact ih _ t h

theorem genTimesLoop_day (cfg : Config) (s : RStream) (d : ℕ) :
    ∀ n k, ∀ t ∈ (genTimesLoop cfg s d n k).1, t.day = d := by
  intro n
  induction n with
  | zero => intro k t ht; simp [genTimesLoop] at ht
  | succ n ih =>
    intro k t ht
    simp only [genTimesLoop, List.mem_cons] at ht
    rcases ht with h | h
    · subst h; rfl
    · exact ih _ t h

theorem genTimesLoop_length (cfg : Config) (s : RStream) (d : ℕ) :
    ∀ n k, ((genTimesLoop cfg s d n k).1).length = n := by
  intro n
  induction n with
  | zero => intro k; rfl
  | succ n ih => intro k; simp only [genTimesLoop, List.length_cons, ih]

theorem generate_commit_times_mem (cfg : Config) (s : RStream) (hs : SOk s) (d : ℕ)
    (hlh : cfg.commit_time_start ≤ cfg.commit_time_end) (count : ℤ) (k : Nat) :
    ∀ t ∈ (generate_commit_times cfg s d count k).1, TsOk cfg d t := by
  intro t ht
  unfold generate_commit_times at ht
  dsimp only at ht
  exact genTimesLoop_mem cfg s hs d hlh _ k t
    ((List.perm_insertionSort tsLE _).mem_iff.1 ht)

theorem generate_commit_times_day (cfg : Config) (s : RStream) (d : ℕ) (count : ℤ) (k : Nat) :
    ∀ t ∈ (generate_commit_times cfg s d count k).1, t.day = d := by
  intro t ht
  unfold generate_commit_times at ht
  dsimp only at ht
  exact genTimesLoop_day cfg s d _ k t ((List.perm_insertionSort tsLE _).mem_iff.1 ht)

theorem generate_commit_times_sorted (cfg : Config) (s : RStream) (d : ℕ) (count : ℤ) (k : Nat) :
    ((generate_commit_times cfg s d count k).1).Pairwise tsLE := by
  unfold generate_commit_times
  dsimp only
  exact List.sorted_insertionSort tsLE _

theorem generate_commit_times_length (cfg : Config) (s : RStream) (d : ℕ) (count : ℤ) (k : Nat) :
    ((generate_commit_times cfg s d count k).1).length = count.toNat := by
  unfold generate_commit_times
  dsimp only
  rw [List.length_insertionSort, genTimesLoop_length]

/-! Helper lemmas about message attachment and day generation. -/

theorem attachMessages_map (s : RStream) :
    ∀ (ts : List Timestamp) (k : Nat), ((attachMessages s ts k).1).map Commit.timestamp = ts := by
  intro ts
  induction ts with
  | nil => intro k; rfl
  | cons t ts ih => intro k; simp only [attachMessages, List.map_cons, ih]

theorem attachMessages_length (s : RStream) (ts : List Timestamp) (k : Nat) :
    ((attachMessages s ts k).1).length = ts.length := by
  have h := congrArg List.length (attachMessages_map s ts k)
  simpa using h

theorem attachMessages_mem (s : RStream) (ts : List Timestamp) (k : Nat) :
    ∀ c ∈ (attachMessages s ts k).1, c.timestamp ∈ ts := by
  intro c hc
  rw [← attachMessages_map s ts k]
  exact List.mem_map_of_mem Commit.timestamp hc

theorem attachMessages_sorted (s : RStream) (ts : List Timestamp) (k : Nat)
    (h : ts.Pairwise tsLE) : ((attachMessages s ts k).1).Pairwise commitLE := by
  have hmap := attachMessages_map s ts k
  rw [← hmap] at h
  exact (List.pairwise_map.1 h).imp (fun hab => hab)

theorem generate_day_mem (cfg : Config) (s : RStream) (hs : SOk s)
    (hlh : cfg.commit_time_start ≤ cfg.commit_time_end) (d : ℕ) (k : Nat) :
    ∀ c ∈ (generate_day cfg s d k).1, TsOk cfg d c.timestamp := by
  intro c hc
  unfold generate_day at hc
  dsimp only at hc
  split at hc
  · exact generate_commit_times_mem cfg s hs d hlh _ _ c.timestamp
      (attachMessages_mem s _ _ c hc)
  · simp at hc

theorem generate_day_day (cfg : Config) (s : RStream) (d : ℕ) (k : Nat) :
    ∀ c ∈ (generate_day cfg s d k).1, c.timestamp.day = d := by
  intro c hc
  unfold generate_day at hc
  dsimp only at hc
  split at hc
  · exact generate_commit_times_day cfg s d _ _ c.timestamp (attachMessages_mem s _ _ c hc)
  · simp at hc

theorem generate_day_sorted (cfg : Config) (s : RStream) (d : ℕ) (k : Nat) :
    ((generate_day cfg s d k).1).Pairwise commitLE := by
  unfold generate_day
  dsimp only
  split
  · exact attachMessages_sorted s _ _ (generate_commit_times_sorted cfg s d _ _)
  · exact List.Pairwise.nil

theorem generate_day_length (cfg : Config) (s : RStream) (d : ℕ) (k : Nat)
    (hact : (should_commit_today cfg s d k).1 = true) :
    ((generate_day cfg s d k).1).length =
      ((get_commit_count cfg s (should_commit_today cfg s d k).2).1).toNat := by
  unfold generate_day
  dsimp only
  rw [hact, if_pos rfl]
  rw [attachMessages_length, generate_commit_times_length]

/-! Helper lemmas about the day loop. -/

theorem tsKey_mono_of_day_lt (cfg : Config) (h0 : 0 ≤ cfg.commit_time_start)
    (h23 : cfg.commit_time_end ≤ 23) (a b : Timestamp)
    (ha : FieldsOk cfg a) (hb : FieldsOk cfg b) (hd : a.day < b.day) :
    tsKey a ≤ tsKey b := by
  obtain ⟨ha1, ha2, ha3, ha4, ha5, ha6⟩ := ha
  obtain ⟨hb1, hb2, hb3, hb4, hb5, hb6⟩ := hb
  unfold tsKey
  have hdz : (a.day : ℤ) < (b.day : ℤ) := by exact_mod_cast hd
  omega

theorem simulateLoop_mem (cfg : Config) (s : RStream) (hs : SOk s)
    (hlh : cfg.commit_time_start ≤ cfg.commit_time_end) :
    ∀ n d k, ∀ c ∈ (simulateLoop cfg s d n k).1,
      FieldsOk cfg c.timestamp ∧ d ≤ c.timestamp.day ∧ c.timestamp.day < d + n := by
  intro n
  induction n with
  | zero => intro d k c hc; simp [simulateLoop] at hc
  | succ n ih =>
    intro d k c hc
    simp only [simulateLoop, List.mem_append] at hc
    rcases hc with h | h
    · obtain ⟨hday, hf⟩ := generate_day_mem cfg s hs hlh d k c h
      exact ⟨hf, by omega, by omega⟩
    · obtain ⟨hf, h1, h2⟩ := ih (d+1) _ c h
      exact ⟨hf, by omega, by omega⟩

theorem simulateLoop_sorted (cfg : Config) (s : RStream) (hs : SOk s)
    (h0 : 0 ≤ cfg.commit_time_start) (hlh : cfg.commit_time_start ≤ cfg.commit_time_end)
    (h23 : cfg.commit_time_end ≤ 23) :
    ∀ n d k, ((simulateLoop cfg s d n k).1).Pairwise commitLE := by
  intro n
  induction n with
  | zero => intro d k; simp [simulateLoop]
  | succ n ih =>
    intro d k
    simp only [simulateLoop]
    rw [List.pairwise_append]
    refine ⟨generate_day_sorted cfg s d k, ih (d+1) _, ?_⟩
    intro a ha b hb
    obtain ⟨haday, haf⟩ := generate_day_mem cfg s hs hlh d k a ha
    obtain ⟨hbf, hb1, _⟩ := simulateLoop_mem cfg s hs hlh n (d+1) _ b hb
    show tsKey a.timestamp ≤ tsKey b.timestamp
    exact tsKey_mono_of_day_lt cfg h0 h23 _ _ haf hbf (by omega)

theorem simulateLoop_one (cfg : Config) (s : RStream) (d : ℕ) (k : Nat) :
    simulateLoop cfg s d 1 k =
      ((generate_day cfg s d k).1 ++ [], (generate_day cfg s d k).2) := rfl

theorem simulate_empty_of_reversed (startD endD : ℕ) (cfg : Config) (s : RStream) (k : Nat)
    (h : endD < startD) : (simulate startD endD cfg s k).1 = [] := by
  unfold simulate
  rw [show endD + 1 - startD = 0 by omega]
  rfl

/-! Helper lemmas about the volume count. -/

theorem pyInt_mul_ge_one (c : ℤ) (m : ℚ) (hc : 1 ≤ c) (hm : 1 ≤ m) : 1 ≤ pyInt ((c : ℚ) * m) := by
  have hcq : (1:ℚ) ≤ (c:ℚ) := by exact_mod_cast hc
  have h1 : (1:ℚ) ≤ (c:ℚ) * m := by nlinarith
  unfold pyInt
  rw [if_pos (by linarith)]
  exact Int.le_floor.2 (by exact_mod_cast h1)

theorem get_commit_count_bounds (cfg : Config) (s : RStream) (k : Nat) (hs : SOk s)
    (hmax : 1 ≤ cfg.max_commits_per_day)
    (hmult : 1 ≤ cfg.burst_multiplier ∨ cfg.burst_probability ≤ 0) :
    1 ≤ (get_commit_count cfg s k).1 ∧ (get_commit_count cfg s k).1 ≤ cfg.max_commits_per_day := by
  unfold get_commit_count gaussD randFloat
  dsimp only
  refine ⟨le_min ?_ hmax, min_le_right _ _⟩
  split
  case isTrue h =>
    rcases hmult with hm | hbp
    · exact pyInt_mul_ge_one _ _ (le_max_left _ _) hm
    · exact absurd h (not_lt.2 (le_trans hbp (hs _).1))
  case isFalse h => exact le_max_left _ _

theorem generate_day_count_ok (cfg : Config) (s : RStream) (d : ℕ) (k : Nat) (hs : SOk s)
    (hmax : 1 ≤ cfg.max_commits_per_day)
    (hmult : 1 ≤ cfg.burst_multiplier ∨ cfg.burst_probability ≤ 0)
    (hact : (should_commit_today cfg s d k).1 = true) :
    activeDayCountOk cfg (generate_day cfg s d k).1 := by
  have hlen := generate_day_length cfg s d k hact
  obtain ⟨hb1, hb2⟩ :=
    get_commit_count_bounds cfg s (should_commit_today cfg s d k).2 hs hmax hmult
  constructor
  · rw [hlen]; omega
  · rw [hlen]; omega

/-! Helper lemmas about the statistics pass. -/

theorem bump_cons_zero (a : ℕ) (t : List ℕ) : bump (a :: t) 0 = (a + 1) :: t := rfl

theorem bump_cons_succ (a : ℕ) (t : List ℕ) (i : ℕ) : bump (a :: t) (i + 1) = a :: bump t i := rfl

theorem bump_length (l : List ℕ) (i : ℕ) : (bump l i).length = l.length := by
  simp [bump]

theorem bump_sum : ∀ (l : List ℕ) (i : ℕ), i < l.length → (bump l i).sum = l.sum + 1 := by
  intro l
  induction l with
  | nil => intro i h; simp at h
  | cons a t ih =>
    intro i h
    cases i with
    | zero => rw [bump_cons_zero]; simp; omega
    | succ i =>
      rw [bump_cons_succ]
      have := ih i (by simpa using h)
      simp [this]
      omega

theorem statsLoop_sums :
    ∀ (l : List Commit) (bd : List (ℕ × ℕ)) (bw bh : List ℕ),
      bw.length = 7 → bh.length = 24 → (∀ c ∈ l, c.timestamp.hour.toNat < 24) →
      (statsLoop l bd bw bh).2.1.sum = bw.sum + l.length ∧
      (statsLoop l bd bw bh).2.2.sum = bh.sum + l.length := by
  intro l
  induction l with
  | nil => intro bd bw bh h7 h24 hh; simp [statsLoop]
  | cons c cs ih =>
    intro bd bw bh h7 h24 hh
    have hw : weekday c.timestamp.day < 7 := Nat.mod_lt _ (by norm_num)
    have hhc : c.timestamp.hour.toNat < 24 := hh c (by simp)
    obtain ⟨s1, s2⟩ := ih (bumpDate bd c.timestamp.day)
      (bump bw (weekday c.timestamp.day)) (bump bh c.timestamp.hour.toNat)
      (by rw [bump_length, h7]) (by rw [bump_length, h24])
      (fun x hx => hh x (List.mem_cons_of_mem c hx))
    constructor
    · simp only [statsLoop]
      rw [s1, bump_sum bw _ (by omega)]
      simp
      omega
    · simp only [statsLoop]
      rw [s2, bump_sum bh _ (by omega)]
      simp
      omega

/-! Helper lemmas about the message generator and the hour sampler. -/

theorem len_space : (" " : String).length = 1 := rfl

theorem len_colon_space : (": " : String).length = 2 := rfl

theorem len_empty : ("" : String).length = 0 := rfl

theorem biasedHourLoop_eq_spec (s : RStream) (lo hi : ℤ) :
    ∀ n k, biasedHourLoop s lo hi n k = specBiasedHour s lo hi n k := by
  intro n
  induction n with
  | zero => intro k; rfl
  | succ n ih =>
    intro k
    simp only [biasedHourLoop, specBiasedHour, specHourAttempt]
    by_cases hp : (10 ≤ (randint s lo hi k).1 ∧ (randint s lo hi k).1 ≤ 12) ∨
        (14 ≤ (randint s lo hi k).1 ∧ (randint s lo hi k).1 ≤ 17)
    · rw [if_pos hp, if_pos hp]
      by_cases hu : (randFloat s (randint s lo hi k).2).1 < 7/10
      · rw [if_pos hu]
        simp only [if_pos hu]
      · rw [if_neg hu]
        simp only [if_neg hu]
        exact ih _
    · rw [if_neg hp, if_neg hp]
      by_cases hu : (randFloat s (randint s lo hi k).2).1 < 2/5
      · rw [if_pos hu]
        simp only [if_pos hu]
      · rw [if_neg hu]
        simp only [if_neg hu]
        exact ih _

/-! Claim theorems. -/

/-- C2 (code behaviour at the failing input): `get_stats` applied to the
empty commit list does not return a zeroed summary; it returns the empty
dictionary, which carries no `total`, `active_days`, weekday or hour
fields at all. -/
theorem get_stats_nil_is_empty_dict : get_stats [] = none := rfl

/-- C9 (counterexample to the universally quantified claim): for the
empty event list no summary with agreeing bucket sums is returned,
because `get_stats []` is the empty dictionary. -/
theorem stats_sums_fail_on_empty : ¬ statsSumsAgree [] := by
  rintro ⟨st, h, -⟩
  simp [get_stats] at h

/-- C9 (amended): for every non-empty list of events with valid
`datetime` field ranges, the summary exists and its 7 weekday bucket
counts, its 24 hour bucket counts and its total all sum to the length of
the input list. -/
theorem stats_sums_agree_of_ne_nil (l : List Commit) (hne : l ≠ [])
    (hv : ∀ c ∈ l, ValidTs c.timestamp) : statsSumsAgree l := by
  obtain ⟨c, cs, rfl⟩ : ∃ c cs, l = c :: cs := by
    cases l with
    | nil => exact absurd rfl hne
    | cons c cs => exact ⟨c, cs, rfl⟩
  have hh : ∀ x ∈ c :: cs, x.timestamp.hour.toNat < 24 := by
    intro x hx
    obtain ⟨hx1, hx2, -⟩ := hv x hx
    omega
  obtain ⟨s1, s2⟩ := statsLoop_sums (c :: cs) [] (List.replicate 7 0) (List.replicate 24 0)
    (by simp) (by simp) hh
  refine ⟨_, rfl, ?_, ?_, rfl⟩
  · show ((statsLoop (c :: cs) [] (List.replicate 7 0) (List.replicate 24 0)).2.1).sum =
      (c :: cs).length
    rw [s1]
    simp
  · show ((statsLoop (c :: cs) [] (List.replicate 7 0) (List.replicate 24 0)).2.2).sum =
      (c :: cs).length
    rw [s2]
    simp

/-- C9 (witness): the amended aggregation identity holds on a concrete
one-event list. -/
theorem stats_sums_agree_check : statsSumsAgree [⟨⟨738156, 10, 30, 5⟩, "x"⟩] :=
  stats_sums_agree_of_ne_nil _ (by simp)
    (by
      intro c hc
      rw [List.mem_singleton] at hc
      subst hc
      exact ⟨by norm_num, by norm_num, by norm_num, by norm_num, by norm_num, by norm_num⟩)

/-- C8: constructing an intensity profile fails, with the configuration
error, exactly when the requested name is not one of the three canonical
names; for the three canonical names construction succeeds and returns
the corresponding parameter bundle. -/
theorem profile_error_iff_unknown_name (intensity : String) :
    ((∃ msg, ContributionProfile.make intensity = Except.error (SimError.configError msg)) ↔
      ¬ IsCanonical intensity) ∧
    ContributionProfile.make "light" = Except.ok lightProfile ∧
    ContributionProfile.make "medium" = Except.ok mediumProfile ∧
    ContributionProfile.make "heavy" = Except.ok heavyProfile := by
  refine ⟨⟨?_, ?_⟩, by simp [ContributionProfile.make], by simp [ContributionProfile.make],
    by simp [ContributionProfile.make]⟩
  · rintro ⟨msg, hmsg⟩ hcan
    rcases hcan with h | h | h <;> subst h <;> simp [ContributionProfile.make] at hmsg
  · intro hncan
    unfold ContributionProfile.make
    rw [if_neg (fun h => hncan (Or.inl h)), if_neg (fun h => hncan (Or.inr (Or.inl h))),
      if_neg (fun h => hncan (Or.inr (Or.inr h)))]
    exact ⟨_, rfl⟩

/-- C4: with an explicit seed, a full run is a function of the range,
the profile name, the seed and nothing else: two runs from arbitrary
(and arbitrarily different) prior generator positions return identical
event sequences — the same events, hence the same count, timestamps and
labels in the same order — because seeding resets the generator to the
start of its seed-determined stream. -/
theorem runSimulate_deterministic (startD endD : ℕ) (intensity : String) (n : ℕ)
    (s : RStream) (k0 k1 : Nat) :
    runSimulate startD endD intensity (some n) s k0 =
      runSimulate startD endD intensity (some n) s k1 := rfl

theorem make_light_eq : ContributionProfile.make "light" = Except.ok lightProfile := rfl

theorem make_medium_eq : ContributionProfile.make "medium" = Except.ok mediumProfile := rfl

theorem make_heavy_eq : ContributionProfile.make "heavy" = Except.ok heavyProfile := rfl

/-- C1 (counterexample): for the reversed range 2022-02-01 .. 2022-01-01
(proleptic ordinals 738187 and 738156) the run does not fail at all — in
particular not with an InvalidRangeError — and returns the empty event
sequence before any event is produced. -/
theorem reversed_range_runs_ok :
    runSimulate 738187 738156 "medium" (some 42) wStream 0 = Except.ok [] ∧
    runSimulate 738187 738156 "medium" (some 42) wStream 0 ≠
      Except.error SimError.invalidRange := by
  have h : runSimulate 738187 738156 "medium" (some 42) wStream 0 = Except.ok [] := by
    unfold runSimulate
    rw [make_medium_eq]
    exact congrArg Except.ok (simulate_empty_of_reversed 738187 738156 mediumProfile wStream
      (seedReset (some 42) 0) (by norm_num))
  exact ⟨h, by rw [h]; simp⟩

/-- C1 (amended): the source defines no InvalidRangeError, so no run
over any range fails with it; a reversed range (start_date > end_date)
is not an error at all — with any canonical profile name the run returns
the empty event sequence, the day loop never executing. -/
theorem reversed_range_yields_empty (startD endD : ℕ) (intensity : String) (seed : Option ℕ)
    (s : RStream) (k : Nat) :
    runSimulate startD endD intensity seed s k ≠ Except.error SimError.invalidRange ∧
    (endD < startD → IsCanonical intensity →
      runSimulate startD endD intensity seed s k = Except.ok []) := by
  constructor
  · unfold runSimulate
    split
    case h_1 e heq =>
      intro hcontra
      injection hcontra with h
      subst h
      unfold ContributionProfile.make at heq
      split_ifs at heq
      all_goals simp at heq
    case h_2 cfg heq => simp
  · intro hlt hcan
    have hempty : ∀ cfg : Config, (simulate startD endD cfg s (seedReset seed k)).1 = [] :=
      fun cfg => simulate_empty_of_reversed startD endD cfg s _ hlt
    rcases hcan with rfl | rfl | rfl
    · unfold runSimulate
      rw [make_light_eq]
      exact congrArg Except.ok (hempty lightProfile)
    · unfold runSimulate
      rw [make_medium_eq]
      exact congrArg Except.ok (hempty mediumProfile)
    · unfold runSimulate
      rw [make_heavy_eq]
      exact congrArg Except.ok (hempty heavyProfile)

/-- C1 (witness): the amended claim instantiated at the concrete
reversed range. -/
theorem reversed_range_yields_empty_check :
    runSimulate 738187 738156 "light" (some 7) wStream 3 = Except.ok [] ∧
    runSimulate 738187 738156 "light" (some 7) wStream 3 ≠
      Except.error SimError.invalidRange := by
  have t := reversed_range_yields_empty 738187 738156 "light" (some 7) wStream 3
  exact ⟨t.2 (by norm_num) (Or.inl rfl), t.1⟩

/-- C3 (counterexample): a stream on which all 10 acceptance attempts
reject: the 10th candidate hour (drawn at stream index 18) is 9, yet the
sampler returns 14 after consuming 21 draws — the fallback makes a fresh
11th uniform draw instead of accepting the last drawn hour. -/
theorem biased_hour_fallback_draws_again :
    biased_hour c3Stream 9 18 0 = (14, 21) ∧ (randint c3Stream 9 18 18).1 = 9 ∧
    ((14:ℤ) ≠ 9) := by
  refine ⟨?_, ?_, by norm_num⟩
  · norm_num [biased_hour, biasedHourLoop, randint, randFloat, c3Stream]
  · norm_num [randint, c3Stream]

/-- C3 (amended): the per-event hour sampler draws a uniform integer
hour in the active range for up to 10 attempts, accepting a candidate in
the peak windows 10-12 or 14-17 with probability 0.7 and any other
candidate with probability 0.4; if all 10 attempts are exhausted without
acceptance, one additional uniform hour is drawn and returned
unconditionally (the last rejected candidate is not reused). -/
theorem biased_hour_matches_spec (s : RStream) (lo hi : ℤ) (k : Nat) :
    biased_hour s lo hi k = specBiasedHour s lo hi 10 k :=
  biasedHourLoop_eq_spec s lo hi 10 k

/-- C5: for every valid range and every profile with well-formed active
hours (as all three canonical profiles have), the sequence returned by
`simulate` is sorted non-decreasing by timestamp — globally, hence also
within each day — and every event's date lies within the inclusive
range. -/
theorem simulate_sorted_and_dates_in_range (cfg : Config) (s : RStream) (startD endD : ℕ)
    (k : Nat) (hs : SOk s) (h0 : 0 ≤ cfg.commit_time_start)
    (hlh : cfg.commit_time_start ≤ cfg.commit_time_end) (h23 : cfg.commit_time_end ≤ 23)
    (hrange : startD ≤ endD) :
    sortedByTime (simulate startD endD cfg s k).1 ∧
    datesWithin startD endD (simulate startD endD cfg s k).1 := by
  constructor
  · exact simulateLoop_sorted cfg s hs h0 hlh h23 _ _ _
  · intro c hc
    obtain ⟨-, h1, h2⟩ := simulateLoop_mem cfg s hs hlh _ _ _ c hc
    exact ⟨h1, by omega⟩

/-- C5 (witness): the sortedness and date-range invariant on a concrete
three-day medium-profile run. -/
theorem simulate_sorted_and_dates_check :
    sortedByTime (simulate 738156 738158 mediumProfile wStream 0).1 ∧
    datesWithin 738156 738158 (simulate 738156 738158 mediumProfile wStream 0).1 :=
  simulate_sorted_and_dates_in_range mediumProfile wStream 738156 738158 0 wStream_ok
    (by norm_num [mediumProfile]) (by norm_num [mediumProfile]) (by norm_num [mediumProfile])
    (by norm_num)

/-- C6: every event returned by `simulate` has its hour-of-day within
the profile's inclusive active range. -/
theorem simulate_hours_in_active_range (cfg : Config) (s : RStream) (startD endD : ℕ)
    (k : Nat) (hs : SOk s) (hlh : cfg.commit_time_start ≤ cfg.commit_time_end) :
    allHoursInRange cfg (simulate startD endD cfg s k).1 := by
  intro c hc
  obtain ⟨⟨hh1, hh2, -⟩, -, -⟩ := simulateLoop_mem cfg s hs hlh _ _ _ c hc
  exact ⟨hh1, hh2⟩

/-- C6 (witness): the hour-range invariant on a concrete two-day
light-profile run. -/
theorem simulate_hours_in_active_range_check :
    allHoursInRange lightProfile (simulate 738156 738157 lightProfile wStream 5).1 :=
  simulate_hours_in_active_range lightProfile wStream 738156 738157 5 wStream_ok
    (by norm_num [lightProfile])

theorem should_commit_today_true (cfg : Config) (s : RStream) (d : ℕ) (k : Nat) (hs : SOk s)
    (hprob : cfg.daily_commit_prob = 1) (hwd : weekday d < 5) :
    (should_commit_today cfg s d k).1 = true := by
  unfold should_commit_today randFloat
  dsimp only
  rw [if_neg (by omega : ¬ 5 ≤ weekday d), hprob]
  exact decide_eq_true (hs k).2

theorem simulate_single_weekday_ok (cfg : Config) (s : RStream) (d : ℕ) (k : Nat) (hs : SOk s)
    (hmax : 1 ≤ cfg.max_commits_per_day) (hprob : cfg.daily_commit_prob = 1)
    (hburst : cfg.burst_probability = 0) (hwd : weekday d < 5) :
    singleDayOutcome cfg d (simulate d d cfg s k).1 := by
  have hact := should_commit_today_true cfg s d k hs hprob hwd
  have hone : (simulate d d cfg s k).1 = (generate_day cfg s d k).1 := by
    unfold simulate
    rw [show d + 1 - d = 1 by omega, simulateLoop_one]
    simp
  obtain ⟨hl1, hl2⟩ := generate_day_count_ok cfg s d k hs hmax (Or.inr (le_of_eq hburst)) hact
  rw [singleDayOutcome, hone]
  exact ⟨List.length_pos.mp (by omega), generate_day_day cfg s d k, hl1, hl2⟩

/-- C7 (amended): first, every activated day of any profile with a
daily maximum of at least 1 and a burst multiplier of at least 1 (as in
all three canonical profiles) produces between 1 and
`max_commits_per_day` events; second, a single-day range on a weekday
with activation probability 1 and burst probability 0 yields exactly one
active day with count in that range (on Saturdays and Sundays the
activation probability is multiplied by the weekend factor, so
activation is no longer guaranteed); third, the burst multiplication is
applied after the clamp to a minimum of 1 and before the final clamp to
the daily maximum. -/
theorem day_volume_bounds_and_burst_order :
    (∀ (cfg : Config) (s : RStream) (d : ℕ) (k : Nat), SOk s →
      1 ≤ cfg.max_commits_per_day →
      (1 ≤ cfg.burst_multiplier ∨ cfg.burst_probability ≤ 0) →
      (should_commit_today cfg s d k).1 = true →
      activeDayCountOk cfg (generate_day cfg s d k).1) ∧
    (∀ (cfg : Config) (s : RStream) (d : ℕ) (k : Nat), SOk s →
      1 ≤ cfg.max_commits_per_day → cfg.daily_commit_prob = 1 →
      cfg.burst_probability = 0 → weekday d < 5 →
      singleDayOutcome cfg d (simulate d d cfg s k).1) ∧
    (∀ (cfg : Config) (s : RStream) (k : Nat),
      (get_commit_count cfg s k).1 =
        specFinalClamp cfg (specBurstAdjust cfg (s.unif (k+1))
          (specBaseVolume (gaussD s cfg.avg_commits_per_day
            (cfg.avg_commits_per_day * (1/2)) k).1))) :=
  ⟨fun cfg s d k hs hmax hmult hact => generate_day_count_ok cfg s d k hs hmax hmult hact,
   fun cfg s d k hs hmax hprob hburst hwd =>
     simulate_single_weekday_ok cfg s d k hs hmax hprob hburst hwd,
   fun _ _ _ => rfl⟩

/-- C7 (witness): the amended bounds instantiated — an activated
medium-profile Monday has between 1 and 8 events, and a single-weekday
guaranteed-activation no-burst run yields exactly one active day. -/
theorem day_volume_bounds_check :
    activeDayCountOk mediumProfile (generate_day mediumProfile wStream 738158 0).1 ∧
    singleDayOutcome c7cfg 738158 (simulate 738158 738158 c7cfg wStream 0).1 :=
  ⟨day_volume_bounds_and_burst_order.1 mediumProfile wStream 738158 0 wStream_ok
      (by norm_num [mediumProfile]) (Or.inl (by norm_num [mediumProfile]))
      (by norm_num [should_commit_today, randFloat, weekday, mediumProfile, wStream]),
   day_volume_bounds_and_burst_order.2.1 c7cfg wStream 738158 0 wStream_ok
      (by norm_num [c7cfg]) (by norm_num [c7cfg]) (by norm_num [c7cfg])
      (by norm_num [weekday])⟩

/-- C7 (counterexample): with activation probability 1 and burst
probability 0 but a weekend multiplier of 3/10, a single-day range on
Saturday 2022-01-01 (ordinal 738156) can activate no day at all: on a
stream whose activation draw is 1/2 the simulation returns no events —
not exactly one active day. -/
theorem single_day_weekend_can_be_empty :
    c7cfg.daily_commit_prob = 1 ∧ c7cfg.burst_probability = 0 ∧ 5 ≤ weekday 738156 ∧
    (simulate 738156 738156 c7cfg wStream 0).1 = [] := by
  refine ⟨rfl, rfl, by norm_num [weekday], ?_⟩
  have hact : (should_commit_today c7cfg wStream 738156 0).1 = false := by
    norm_num [should_commit_today, randFloat, weekday, c7cfg, wStream]
  unfold simulate
  rw [show (738156 + 1 - 738156 : ℕ) = 1 by norm_num, simulateLoop_one]
  dsimp only
  rw [List.append_nil]
  unfold generate_day
  dsimp only
  rw [hact]
  simp

/-- C10: for every state of the random stream — not merely with
overwhelming probability — the message generator returns a non-empty
string: each of the three templates joins an action slot and an object
slot with a separator of positive length. -/
theorem generate_message_nonempty (s : RStream) (k : Nat) :
    (CommitMessageGenerator.generate s k).1 ≠ "" := by
  unfold CommitMessageGenerator.generate
  dsimp only
  split_ifs
  all_goals
    intro he
    have hl := congrArg String.length he
    dsimp only at hl
    simp only [String.length_append, len_space, len_colon_space, len_empty] at hl
    omega
